import Mathlib

/-!
Shallow embedding of the data pipeline of `src/app.py` (a pandas/Streamlit
dashboard).  The embedding covers:

* client-name extraction from file names (`os.path.basename` followed by two
  Python `str.replace` calls, which replace every occurrence);
* CSV ingestion: pandas `read_csv` column type inference (a column all of
  whose non-empty entries parse as plain numerals becomes numeric, empty
  entries becoming NaN; otherwise the non-empty entries stay strings),
  `pd.to_datetime(..., format="%Y-%m-%d", errors="coerce")` date coercion,
  and the per-file rejection when every date is null (`isnull().all()`);
* aggregation: `groupby(["Client", "Date"]).agg(sum)` — pandas drops rows
  whose group key is NaT and its sum skips NaN, so an all-NaN group sums
  to 0; the Total rows are concatenated onto the raw rows;
* filtering by selected clients and an inclusive date range, and the
  summary sums over the rows whose Operation is "Total".

Numeric values are modelled with `ℚ`; a NaN cell is the explicit `Cell.nan`
constructor and a non-numeric (object dtype) cell keeps its raw string.
Dates are encoded as `y * 10000 + m * 100 + d : ℕ`, so that `≤` on the
encoding agrees with chronological order for valid dates; a NaT date is
`none : Option ℕ`.
-/

namespace Dashboard

/-- A pandas cell after `read_csv` type inference: a float, NaN, or a raw
string (object dtype).  A mixed numeric/string column would make the later
group sums raise in pandas; the theorems about sums therefore carry the
hypothesis that no cell in play is a string. -/
inductive Cell where
  | num (q : ℚ)
  | nan
  | str (s : String)
deriving DecidableEq

/-- Whether the cell is a raw (object dtype) string. -/
def Cell.isStr : Cell → Bool
  | .str _ => true
  | _ => false

/-- Numeric value of a cell for summation: NaN contributes 0, matching the
skipna behaviour of the pandas `sum` used at `app.py` lines 45-48 and 98-99. -/
def Cell.toQ : Cell → ℚ
  | .num q => q
  | _ => 0

/-- String content of a cell, if any. -/
def Cell.strVal : Cell → Option String
  | .str s => some s
  | _ => none

/-- Value of a decimal digit string read left to right. -/
def digitsToNat (ds : List Char) : ℕ :=
  ds.foldl (fun n c => 10 * n + (c.toNat - 48)) 0

/-- A plain numeral as accepted by pandas when inferring a numeric column:
an optional sign, then digits with at most one decimal point (a grouping
separator such as the comma in "1,000" is NOT accepted — `read_csv` is
called at `app.py` line 28 without a `thousands` argument). -/
def parseNumeral (s : String) : Option ℚ :=
  let signed : Bool × List Char :=
    match s.data with
    | '-' :: rest => (true, rest)
    | '+' :: rest => (false, rest)
    | cs => (false, cs)
  let intPart := signed.2.takeWhile Char.isDigit
  let rest := signed.2.dropWhile Char.isDigit
  match rest with
  | [] =>
    if intPart = [] then none
    else if signed.1 then some (-(digitsToNat intPart : ℚ))
    else some ((digitsToNat intPart : ℚ))
  | '.' :: frac =>
    if frac.all Char.isDigit ∧ ¬(intPart = [] ∧ frac = []) then
      let q : ℚ :=
        (digitsToNat intPart : ℚ) + (digitsToNat frac : ℚ) / (10 ^ frac.length)
      some (if signed.1 then -q else q)
    else none
  | _ => none

/-- Splitting a character list on every occurrence of a separator, as
`str.split(sep)` does for a one-character separator. -/
def splitOnChar (sep : Char) : List Char → List (List Char)
  | [] => [[]]
  | c :: cs =>
    if c = sep then [] :: splitOnChar sep cs
    else
      match splitOnChar sep cs with
      | [] => [[c]]
      | g :: gs => (c :: g) :: gs

/-- Whether a year is a leap year (Gregorian rules). -/
def isLeap (y : ℕ) : Bool :=
  (y % 4 == 0 && y % 100 != 0) || (y % 400 == 0)

/-- Number of days in a month. -/
def daysInMonth (y m : ℕ) : ℕ :=
  if m = 2 then (if isLeap y then 29 else 28)
  else if m = 4 ∨ m = 6 ∨ m = 9 ∨ m = 11 then 30
  else 31

/-- Model of `pd.to_datetime(s, errors="coerce", format="%Y-%m-%d")` from
`app.py` line 29: a strict `YYYY-MM-DD` parse, yielding the encoding
`y * 10000 + m * 100 + d` on success and `none` (NaT) otherwise. -/
def parseDate (s : String) : Option ℕ :=
  match splitOnChar '-' s.data with
  | [ys, ms, ds] =>
    if ys.length = 4 ∧ ys.all Char.isDigit ∧
       1 ≤ ms.length ∧ ms.length ≤ 2 ∧ ms.all Char.isDigit ∧
       1 ≤ ds.length ∧ ds.length ≤ 2 ∧ ds.all Char.isDigit then
      let y := digitsToNat ys
      let m := digitsToNat ms
      let d := digitsToNat ds
      if 1 ≤ m ∧ m ≤ 12 ∧ 1 ≤ d ∧ d ≤ daysInMonth y m then
        some (y * 10000 + m * 100 + d)
      else none
    else none
  | _ => none

/-- One row of the combined dataframe: the `Client`, `Date`, `Operation`,
`Volume` and `Amount` columns of `app.py`.  (The optional `Timezone` column
present in some data files is carried along by pandas but never read by the
program, so it is omitted.) -/
structure Rec where
  client : String
  date : Option ℕ
  operation : String
  volume : Cell
  amount : Cell
deriving DecidableEq

/-- The pandas `sum` aggregate over one column of a group (`app.py` lines
45-48) and over a filtered Series (lines 98-99): on a numeric column NaN is
skipped, so a group of NaNs sums to `0`; on an all-string object column
Python's `sum` concatenates the strings.  (A mixed column raises in pandas;
the sum theorems below assume no string cells.) -/
def aggCol (cs : List Cell) : Cell :=
  if cs.all fun c => !c.isStr then .num ((cs.map Cell.toQ).sum)
  else .str (String.join (cs.filterMap Cell.strVal))

/-- The group keys of `combined_df.groupby(["Client", "Date"])` at `app.py`
line 45: pandas drops rows whose `Date` is NaT (the default `dropna=True`)
and produces one group per remaining distinct (client, date) pair. -/
def keysOf (recs : List Rec) : List (String × ℕ) :=
  (recs.filterMap fun r => r.date.map fun d => (r.client, d)).dedup

/-- The rows belonging to the group of a given (client, date) key. -/
def groupOf (recs : List Rec) (c : String) (d : ℕ) : List Rec :=
  recs.filter fun r => r.client == c && r.date == some d

/-- The derived `total_df` of `app.py` lines 44-49: one row per
(client, date) group, `Volume` and `Amount` summed, `Operation` set to
`"Total"`.  (pandas lists the groups in sorted key order; the key order is
immaterial to every property below, so first-occurrence order is used.) -/
def totalDf (recs : List Rec) : List Rec :=
  (keysOf recs).map fun k =>
    { client := k.1
      date := some k.2
      operation := "Total"
      volume := aggCol ((groupOf recs k.1 k.2).map Rec.volume)
      amount := aggCol ((groupOf recs k.1 k.2).map Rec.amount) }

/-- The enriched `combined_df` of `app.py` line 52: raw rows followed by the
derived Total rows. -/
def combinedDf (recs : List Rec) : List Rec :=
  recs ++ totalDf recs

/-- Whether an optional date lies in the inclusive range; a NaT date
compares false, as in pandas. -/
def inDateRange (s e : ℕ) : Option ℕ → Bool
  | some d => s ≤ d && d ≤ e
  | none => false

/-- The `filtered_df` of `app.py` lines 88-93: client selected, date not
null, and start ≤ date ≤ end. -/
def filteredDf (recs : List Rec) (sel : List String) (s e : ℕ) : List Rec :=
  recs.filter fun r =>
    sel.contains r.client && r.date.isSome && inDateRange s e r.date

/-- The rows whose `Operation` is the literal `"Total"`. -/
def totalRows (recs : List Rec) : List Rec :=
  recs.filter fun r => r.operation == "Total"

/-- Summary `total_volume` of `app.py` line 98. -/
def totalVolume (recs : List Rec) : Cell :=
  aggCol ((totalRows recs).map Rec.volume)

/-- Summary `total_amount` of `app.py` line 99. -/
def totalAmount (recs : List Rec) : Cell :=
  aggCol ((totalRows recs).map Rec.amount)

/-! ### Ingestion -/

/-- Python's `str.replace(pat, rep)` on character lists: every non-overlapping
occurrence of `pat`, scanning left to right, is replaced by `rep`.  This is
the semantics of the two `.replace(...)` calls at `app.py` line 25 — note
that Python replaces ALL occurrences, not only a leading prefix or trailing
suffix. -/
def replaceAllAux (pat rep : List Char) : ℕ → List Char → List Char
  | _, [] => []
  | 0, l => l
  | fuel + 1, c :: cs =>
    if pat.isPrefixOf (c :: cs) ∧ pat ≠ [] then
      rep ++ replaceAllAux pat rep fuel ((c :: cs).drop pat.length)
    else
      c :: replaceAllAux pat rep fuel cs

/-- Entry point of the replacement scan: a fuel of `l.length` always
suffices, because each step consumes at least one character. -/
def replaceAll (pat rep : List Char) (l : List Char) : List Char :=
  replaceAllAux pat rep l.length l

/-- Python's `str.replace` lifted to `String`. -/
def pyReplace (s pat rep : String) : String :=
  ⟨replaceAll pat.data rep.data s.data⟩

/-- Model of `os.path.basename`: the part of the path after the last slash. -/
def basename (p : String) : String :=
  ⟨(splitOnChar '/' p.data).getLastD []⟩

/-- Client-name extraction from a base file name, per `app.py` line 25:
`base.replace("dados_", "").replace(".csv", "")`. -/
def extractClient (base : String) : String :=
  pyReplace (pyReplace base "dados_" "") ".csv" ""

/-- The `client_name` of `app.py` line 25. -/
def clientName (path : String) : String :=
  extractClient (basename path)

/-- One raw CSV data row, with its fields still unparsed text. -/
structure CsvRow where
  dateStr : String
  operation : String
  volumeStr : String
  amountStr : String
deriving DecidableEq

/-- One discovered `dados_*.csv` file.  `readError` models `pd.read_csv`
raising (unreadable file, malformed table, missing column), which the
`try`/`except` of `app.py` lines 23-38 turns into an error notice. -/
structure CsvFile where
  path : String
  readError : Bool
  rows : List CsvRow
deriving DecidableEq

/-- `read_csv` column type inference: if every non-empty entry of the column
parses as a plain numeral the column becomes numeric (empty entries → NaN);
otherwise the column is object dtype and the non-empty entries stay raw
strings.  No separator stripping takes place. -/
def inferCol (vals : List String) : List Cell :=
  if vals.all fun s => s == "" || (parseNumeral s).isSome then
    vals.map fun s =>
      match parseNumeral s with
      | some q => .num q
      | none => .nan
  else
    vals.map fun s => if s == "" then .nan else .str s

/-- The records a successfully read file contributes: each row keeps its
operation text, its date is coerced (`errors="coerce"`), and the volume and
amount columns go through `inferCol`; the extracted client name is attached
to every row (`app.py` line 30). -/
def fileRecs (client : String) (rows : List CsvRow) : List Rec :=
  let vols := inferCol (rows.map CsvRow.volumeStr)
  let amts := inferCol (rows.map CsvRow.amountStr)
  (rows.zip (vols.zip amts)).map fun p =>
    { client := client
      date := parseDate p.1.dateStr
      operation := p.1.operation
      volume := p.2.1
      amount := p.2.2 }

/-- Processing of one file, `app.py` lines 22-38: a read error yields the
`except`-branch notice; a file in which every coerced date is null yields
the line 34 notice; otherwise all the file's rows are contributed. -/
def ingestFile (f : CsvFile) : Except String (List Rec) :=
  if f.readError then
    .error ("Erro ao carregar " ++ f.path)
  else if (f.rows.map fun r => parseDate r.dateStr).all Option.isNone then
    .error ("Erro: Nenhuma data valida encontrada em " ++ f.path)
  else
    .ok (fileRecs (clientName f.path) f.rows)

/-- The whole ingestion loop: concatenated records of the accepted files
(in file order, as `pd.concat(all_dfs)` does) and one failure notice per
rejected file. -/
def loadDir : List CsvFile → List Rec × List String
  | [] => ([], [])
  | f :: fs =>
    let rest := loadDir fs
    match ingestFile f with
    | .ok rs => (rs ++ rest.1, rest.2)
    | .error e => (rest.1, e :: rest.2)

/-- The `load` contract of the spec: ingested records enriched with the
derived Total rows, plus the failure notices.  (When every file is rejected
the program shows only a warning; `combinedDf [] = []` models the empty
dataset.) -/
def load (files : List CsvFile) : List Rec × List String :=
  (combinedDf (loadDir files).1, (loadDir files).2)

/-! ### Helper lemmas -/

theorem mem_keysOf {recs : List Rec} {c : String} {d : ℕ} :
    (c, d) ∈ keysOf recs ↔ ∃ r ∈ recs, r.client = c ∧ r.date = some d := by
  simp only [keysOf, List.mem_dedup, List.mem_filterMap, Option.map_eq_some',
    Prod.mk.injEq]
  constructor
  · rintro ⟨r, hr, d', hd', rfl, rfl⟩
    exact ⟨r, hr, rfl, hd'⟩
  · rintro ⟨r, hr, rfl, hd⟩
    exact ⟨r, hr, d, hd, rfl, rfl⟩

theorem nodup_keysOf (recs : List Rec) : (keysOf recs).Nodup :=
  List.nodup_dedup _

theorem mem_groupOf {recs : List Rec} {c : String} {d : ℕ} {r : Rec} :
    r ∈ groupOf recs c d ↔ r ∈ recs ∧ r.client = c ∧ r.date = some d := by
  simp [groupOf, List.mem_filter]

theorem aggCol_eq_num {cs : List Cell} (h : ∀ c ∈ cs, c.isStr = false) :
    aggCol cs = .num ((cs.map Cell.toQ).sum) := by
  unfold aggCol
  rw [if_pos]
  exact List.all_eq_true.mpr fun c hc => by simp [h c hc]

theorem total_row_mem {recs : List Rec} {c : String} {d : ℕ}
    (hmem : ∃ r ∈ recs, r.client = c ∧ r.date = some d) :
    (⟨c, some d, "Total", aggCol ((groupOf recs c d).map Rec.volume),
       aggCol ((groupOf recs c d).map Rec.amount)⟩ : Rec) ∈ totalDf recs :=
  List.mem_map.mpr ⟨(c, d), mem_keysOf.mpr hmem, rfl⟩

theorem groupOf_volume_sum {recs : List Rec} {c : String} {d : ℕ}
    (hnum : ∀ r ∈ recs, r.volume.isStr = false) :
    aggCol ((groupOf recs c d).map Rec.volume) =
      .num (((groupOf recs c d).map fun r => r.volume.toQ).sum) := by
  rw [aggCol_eq_num, List.map_map]
  · rfl
  · intro x hx
    obtain ⟨r, hr, rfl⟩ := List.mem_map.mp hx
    exact hnum r (mem_groupOf.mp hr).1

theorem groupOf_amount_sum {recs : List Rec} {c : String} {d : ℕ}
    (hnum : ∀ r ∈ recs, r.amount.isStr = false) :
    aggCol ((groupOf recs c d).map Rec.amount) =
      .num (((groupOf recs c d).map fun r => r.amount.toQ).sum) := by
  rw [aggCol_eq_num, List.map_map]
  · rfl
  · intro x hx
    obtain ⟨r, hr, rfl⟩ := List.mem_map.mp hx
    exact hnum r (mem_groupOf.mp hr).1

/-! ### C1 -/

/-- C1: the aggregation step groups the ingested records by (client, date)
and, for every group, the derived dataset contains a Total record whose
volume is the sum of the group's volumes and whose amount is the sum of the
group's amounts (NaN cells contributing 0, as pandas `sum` skips them). -/
theorem total_row_aggregates_group_sums (recs : List Rec) (c : String) (d : ℕ)
    (hmem : ∃ r ∈ recs, r.client = c ∧ r.date = some d)
    (hnum : ∀ r ∈ recs, r.volume.isStr = false ∧ r.amount.isStr = false) :
    (⟨c, some d, "Total",
       .num (((groupOf recs c d).map fun r => r.volume.toQ).sum),
       .num (((groupOf recs c d).map fun r => r.amount.toQ).sum)⟩ : Rec) ∈
      totalDf recs := by
  have h := total_row_mem hmem
  rwa [groupOf_volume_sum (fun r hr => (hnum r hr).1),
       groupOf_amount_sum (fun r hr => (hnum r hr).2)] at h

/-- Witness for C1, at the spec's own example: rows
(2024-01-01, deposit, volume 10, amount 100) and
(2024-01-01, withdrawal, volume 5, amount 50) yield the Total row
(volume 15, amount 150). -/
theorem total_row_aggregates_group_sums_witness :
    (⟨"A", some 20240101, "Total", .num 15, .num 150⟩ : Rec) ∈
      totalDf [⟨"A", some 20240101, "deposit", .num 10, .num 100⟩,
               ⟨"A", some 20240101, "withdrawal", .num 5, .num 50⟩] := by
  have h := total_row_aggregates_group_sums
    [⟨"A", some 20240101, "deposit", .num 10, .num 100⟩,
     ⟨"A", some 20240101, "withdrawal", .num 5, .num 50⟩]
    "A" 20240101
    ⟨⟨"A", some 20240101, "deposit", .num 10, .num 100⟩, by decide⟩
    (by decide)
  have he : (⟨"A", some 20240101, "Total",
      .num (((groupOf [⟨"A", some 20240101, "deposit", .num 10, .num 100⟩,
                       ⟨"A", some 20240101, "withdrawal", .num 5, .num 50⟩]
              "A" 20240101).map fun r => r.volume.toQ).sum),
      .num (((groupOf [⟨"A", some 20240101, "deposit", .num 10, .num 100⟩,
                       ⟨"A", some 20240101, "withdrawal", .num 5, .num 50⟩]
              "A" 20240101).map fun r => r.amount.toQ).sum)⟩ : Rec) =
      ⟨"A", some 20240101, "Total", .num 15, .num 150⟩ := by
    simp [groupOf, Cell.toQ]
    norm_num
  rwa [he] at h

/-! ### C2 -/

/-- C2 counterexample: for a (client, date) group in which every raw
record's amount is missing, the derived Total record's amount is the number
0, not the missing marker — `groupby(...).agg("sum")` at `app.py` lines
45-48 sums an all-NaN group to 0. -/
theorem all_missing_group_sums_to_zero :
    totalDf [⟨"A", some 20240101, "deposit", .num 1, .nan⟩] =
      [⟨"A", some 20240101, "Total", .num 1, .num 0⟩] ∧
    Cell.num 0 ≠ Cell.nan := by
  refine ⟨?_, by decide⟩
  simp [totalDf, keysOf, groupOf, aggCol, Cell.toQ, Cell.isStr, Cell.strVal,
    List.dedup]

/-- C2 (amended): missing amounts contribute 0 to the Total record's amount
sum in every group — including a group whose amounts are all missing, whose
Total amount is therefore the number 0 rather than the missing marker. -/
theorem total_amount_treats_missing_as_zero (recs : List Rec) (c : String)
    (d : ℕ) (hmem : ∃ r ∈ recs, r.client = c ∧ r.date = some d)
    (hnum : ∀ r ∈ recs, r.amount.isStr = false) :
    ∃ r ∈ totalDf recs, r.client = c ∧ r.date = some d ∧
      r.operation = "Total" ∧
      r.amount = .num (((groupOf recs c d).map fun x => x.amount.toQ).sum) ∧
      ((∀ x ∈ groupOf recs c d, x.amount = Cell.nan) → r.amount = .num 0) := by
  refine ⟨⟨c, some d, "Total", aggCol ((groupOf recs c d).map Rec.volume),
    aggCol ((groupOf recs c d).map Rec.amount)⟩, total_row_mem hmem,
    rfl, rfl, rfl, groupOf_amount_sum hnum, ?_⟩
  intro hall
  rw [groupOf_amount_sum hnum]
  have hz : (((groupOf recs c d).map fun x => x.amount.toQ)).sum = 0 := by
    apply List.sum_eq_zero
    intro q hq
    obtain ⟨r, hr, rfl⟩ := List.mem_map.mp hq
    rw [hall r hr]
    rfl
  rw [hz]

/-- Witness for C2 (amended): a single record with a NaN amount yields a
Total row whose amount is the number 0. -/
theorem total_amount_treats_missing_as_zero_witness :
    ∃ r ∈ totalDf [⟨"A", some 20240101, "deposit", .num 1, .nan⟩],
      r.operation = "Total" ∧ r.amount = Cell.num 0 := by
  obtain ⟨r, hr, -, -, hop, -, hz⟩ :=
    total_amount_treats_missing_as_zero
      [⟨"A", some 20240101, "deposit", .num 1, .nan⟩] "A" 20240101
      ⟨⟨"A", some 20240101, "deposit", .num 1, .nan⟩, by decide⟩ (by decide)
  exact ⟨r, hr, hop, hz (by decide)⟩

/-! ### C3 -/

theorem length_inferCol (vals : List String) :
    (inferCol vals).length = vals.length := by
  unfold inferCol
  split <;> simp

theorem zip_map_third {α β γ : Type} :
    ∀ (l1 : List α) (l2 : List β) (l3 : List γ),
      l2.length = l1.length → l3.length = l1.length →
      ((l1.zip (l2.zip l3)).map fun p => p.2.2) = l3 := by
  intro l1
  induction l1 with
  | nil =>
    intro l2 l3 _ h3
    simp only [List.length_nil] at h3
    rw [List.length_eq_zero.mp h3]
    simp
  | cons a l1 ih =>
    intro l2 l3 h2 h3
    cases l2 with
    | nil => simp at h2
    | cons b l2 =>
      cases l3 with
      | nil => simp at h3
      | cons c l3 =>
        simp only [List.length_cons, Nat.succ.injEq] at h2 h3
        simp only [List.zip_cons_cons, List.map_cons]
        rw [ih l2 l3 h2 h3]

theorem fileRecs_length (client : String) (rows : List CsvRow) :
    (fileRecs client rows).length = rows.length := by
  unfold fileRecs
  simp [List.length_zip, length_inferCol]

theorem fileRecs_map_amount (client : String) (rows : List CsvRow) :
    (fileRecs client rows).map Rec.amount =
      inferCol (rows.map CsvRow.amountStr) := by
  unfold fileRecs
  rw [List.map_map]
  exact zip_map_third rows _ _
    (by simp [length_inferCol]) (by simp [length_inferCol])

theorem ingestFile_ok {f : CsvFile} {rs : List Rec}
    (hok : ingestFile f = .ok rs) :
    rs = fileRecs (clientName f.path) f.rows := by
  unfold ingestFile at hok
  split at hok
  · exact absurd hok (by simp)
  · split at hok
    · exact absurd hok (by simp)
    · cases hok
      rfl

/-- C3 counterexample: the amount "1,000" is NOT stripped of its grouping
separator before numeric conversion — `read_csv` is called without a
`thousands` argument at `app.py` line 28 and no later conversion exists, so
the cell stays the raw string "1,000" (it is neither the number 1000 nor
the missing marker), though the row itself is kept. -/
theorem separator_amount_stays_string :
    (ingestFile ⟨"data/dados_A.csv", false,
        [⟨"2024-01-01", "deposit", "10", "1,000"⟩]⟩).toOption =
      some [⟨"A", some 20240101, "deposit", .num 10, .str "1,000"⟩] ∧
    Cell.str "1,000" ≠ Cell.num 1000 ∧ Cell.str "1,000" ≠ Cell.nan := by
  decide

/-- C3 (amended): a row whose amount fails numeric conversion is still not
dropped — every row of an accepted file contributes a record — but no
separator stripping happens: when the amount column fails numeric
inference, each record keeps its amount as the raw string (NaN only for an
empty field) instead of receiving the missing marker. -/
theorem amount_rows_kept_but_not_stripped (f : CsvFile) (rs : List Rec)
    (hok : ingestFile f = .ok rs) :
    rs.length = f.rows.length ∧
    (¬((f.rows.map CsvRow.amountStr).all fun s =>
        s == "" || (parseNumeral s).isSome) = true →
      rs.map Rec.amount = f.rows.map fun row =>
        if row.amountStr == "" then Cell.nan else Cell.str row.amountStr) := by
  rw [ingestFile_ok hok]
  refine ⟨fileRecs_length _ _, fun hbad => ?_⟩
  rw [fileRecs_map_amount]
  unfold inferCol
  rw [if_neg hbad, List.map_map]
  rfl

/-- Witness for C3 (amended): the single-row file whose amount is "1,000"
keeps its one row, with the amount cell holding the raw string. -/
theorem amount_rows_kept_but_not_stripped_witness :
    ([⟨"A", some 20240101, "deposit", .num 10, .str "1,000"⟩] : List Rec).length =
      [(⟨"2024-01-01", "deposit", "10", "1,000"⟩ : CsvRow)].length ∧
    ([⟨"A", some 20240101, "deposit", .num 10, .str "1,000"⟩] : List Rec).map
        Rec.amount =
      [(⟨"2024-01-01", "deposit", "10", "1,000"⟩ : CsvRow)].map fun row =>
        if row.amountStr == "" then Cell.nan else Cell.str row.amountStr := by
  have h := amount_rows_kept_but_not_stripped
    ⟨"data/dados_A.csv", false, [⟨"2024-01-01", "deposit", "10", "1,000"⟩]⟩
    [⟨"A", some 20240101, "deposit", .num 10, .str "1,000"⟩] rfl
  exact ⟨h.1, h.2 (by decide)⟩

/-! ### C4 -/

/-- C4: a file whose read raises, or in which every record's date fails to
parse, contributes zero records and exactly one failure notice naming that
file; a file with at least one valid date is accepted and contributes all
of its rows — the missing-date ones included. -/
theorem file_rejection_and_partial_success (f : CsvFile) (fs : List CsvFile) :
    (f.readError = true →
      loadDir (f :: fs) =
        ((loadDir fs).1, ("Erro ao carregar " ++ f.path) :: (loadDir fs).2)) ∧
    (f.readError = false →
      ((f.rows.map fun r => parseDate r.dateStr).all Option.isNone = true →
        loadDir (f :: fs) =
          ((loadDir fs).1,
            ("Erro: Nenhuma data valida encontrada em " ++ f.path) ::
              (loadDir fs).2)) ∧
      (¬(f.rows.map fun r => parseDate r.dateStr).all Option.isNone = true →
        loadDir (f :: fs) =
          (fileRecs (clientName f.path) f.rows ++ (loadDir fs).1,
            (loadDir fs).2) ∧
        (fileRecs (clientName f.path) f.rows).length = f.rows.length)) := by
  refine ⟨fun hre => ?_, fun hre => ⟨fun hall => ?_, fun hsome => ⟨?_, fileRecs_length _ _⟩⟩⟩
  · simp [loadDir, ingestFile, hre]
  · simp [loadDir, ingestFile, hre, hall]
  · simp [loadDir, ingestFile, hre, hsome]

/-- Witness for C4: a file whose only date is unparseable is rejected with
one notice naming it, while a file with one valid and one missing date
contributes both of its rows and no notice. -/
theorem file_rejection_and_partial_success_witness :
    loadDir [⟨"data/dados_A.csv", false, [⟨"bad", "x", "1", "2"⟩]⟩] =
      ([], ["Erro: Nenhuma data valida encontrada em data/dados_A.csv"]) ∧
    (loadDir [⟨"data/dados_B.csv", false,
        [⟨"2024-01-01", "deposit", "1", "2"⟩,
         ⟨"oops", "withdrawal", "3", "4"⟩]⟩]).1.length = 2 ∧
    (loadDir [⟨"data/dados_B.csv", false,
        [⟨"2024-01-01", "deposit", "1", "2"⟩,
         ⟨"oops", "withdrawal", "3", "4"⟩]⟩]).2 = [] := by
  have h1 := ((file_rejection_and_partial_success
    ⟨"data/dados_A.csv", false, [⟨"bad", "x", "1", "2"⟩]⟩ []).2 rfl).1 (by decide)
  have h2 := ((file_rejection_and_partial_success
    ⟨"data/dados_B.csv", false,
      [⟨"2024-01-01", "deposit", "1", "2"⟩,
       ⟨"oops", "withdrawal", "3", "4"⟩]⟩ []).2 rfl).2 (by decide)
  refine ⟨h1, ?_, ?_⟩
  · rw [h2.1]
    simpa using h2.2
  · rw [h2.1]
    rfl

/-! ### C5 -/

/-- C5: the filter step returns exactly the records whose client is in the
selected set and whose date is present and within the inclusive range
[start, end]; a record with a missing date is never in the filtered output,
but every record remains present in the unfiltered combined dataset. -/
theorem filter_characterization (recs : List Rec) (sel : List String)
    (s e : ℕ) (r : Rec) :
    (r ∈ filteredDf recs sel s e ↔
      r ∈ recs ∧ r.client ∈ sel ∧ ∃ d, r.date = some d ∧ s ≤ d ∧ d ≤ e) ∧
    (r.date = none → r ∉ filteredDf recs sel s e) ∧
    (r ∈ recs → r ∈ combinedDf recs) := by
  have hiff : r ∈ filteredDf recs sel s e ↔
      r ∈ recs ∧ r.client ∈ sel ∧ ∃ d, r.date = some d ∧ s ≤ d ∧ d ≤ e := by
    unfold filteredDf
    rw [List.mem_filter]
    cases hd : r.date with
    | none => simp [inDateRange, hd]
    | some d => simp [inDateRange, hd, and_assoc]
  refine ⟨hiff, fun hnone hmem => ?_, fun hmem => ?_⟩
  · obtain ⟨-, -, d, hd, -⟩ := hiff.mp hmem
    rw [hnone] at hd
    cases hd
  · exact List.mem_append_left _ hmem

/-- Witness for C5: with range [2024-01-01, 2024-01-31], records dated at
both boundary dates are kept, an unselected client's record is expressible
only through the characterization, and a missing-date record is excluded
while remaining in the combined dataset. -/
theorem filter_characterization_witness :
    (⟨"A", some 20240101, "deposit", .num 1, .num 2⟩ : Rec) ∈
      filteredDf [⟨"A", some 20240101, "deposit", .num 1, .num 2⟩,
                  ⟨"A", some 20240131, "deposit", .num 3, .num 4⟩,
                  ⟨"B", none, "deposit", .num 5, .num 6⟩]
        ["A", "B"] 20240101 20240131 ∧
    (⟨"A", some 20240131, "deposit", .num 3, .num 4⟩ : Rec) ∈
      filteredDf [⟨"A", some 20240101, "deposit", .num 1, .num 2⟩,
                  ⟨"A", some 20240131, "deposit", .num 3, .num 4⟩,
                  ⟨"B", none, "deposit", .num 5, .num 6⟩]
        ["A", "B"] 20240101 20240131 ∧
    (⟨"B", none, "deposit", .num 5, .num 6⟩ : Rec) ∉
      filteredDf [⟨"A", some 20240101, "deposit", .num 1, .num 2⟩,
                  ⟨"A", some 20240131, "deposit", .num 3, .num 4⟩,
                  ⟨"B", none, "deposit", .num 5, .num 6⟩]
        ["A", "B"] 20240101 20240131 ∧
    (⟨"B", none, "deposit", .num 5, .num 6⟩ : Rec) ∈
      combinedDf [⟨"A", some 20240101, "deposit", .num 1, .num 2⟩,
                  ⟨"A", some 20240131, "deposit", .num 3, .num 4⟩,
                  ⟨"B", none, "deposit", .num 5, .num 6⟩] := by
  have h1 := filter_characterization
    [⟨"A", some 20240101, "deposit", .num 1, .num 2⟩,
     ⟨"A", some 20240131, "deposit", .num 3, .num 4⟩,
     ⟨"B", none, "deposit", .num 5, .num 6⟩] ["A", "B"] 20240101 20240131
    ⟨"A", some 20240101, "deposit", .num 1, .num 2⟩
  have h2 := filter_characterization
    [⟨"A", some 20240101, "deposit", .num 1, .num 2⟩,
     ⟨"A", some 20240131, "deposit", .num 3, .num 4⟩,
     ⟨"B", none, "deposit", .num 5, .num 6⟩] ["A", "B"] 20240101 20240131
    ⟨"A", some 20240131, "deposit", .num 3, .num 4⟩
  have h3 := filter_characterization
    [⟨"A", some 20240101, "deposit", .num 1, .num 2⟩,
     ⟨"A", some 20240131, "deposit", .num 3, .num 4⟩,
     ⟨"B", none, "deposit", .num 5, .num 6⟩] ["A", "B"] 20240101 20240131
    ⟨"B", none, "deposit", .num 5, .num 6⟩
  exact ⟨h1.1.mpr ⟨by decide, by decide, 20240101, rfl, by decide, by decide⟩,
    h2.1.mpr ⟨by decide, by decide, 20240131, rfl, by decide, by decide⟩,
    h3.2.1 rfl, h3.2.2 (by decide)⟩

/-! ### C6 -/

theorem mem_totalRows {recs : List Rec} {r : Rec} :
    r ∈ totalRows recs ↔ r ∈ recs ∧ r.operation = "Total" := by
  simp [totalRows, List.mem_filter]

/-- C6: the summary total volume and total amount are plain sums over only
the records whose operation is "Total" — the summary of a dataset holding
both raw and Total rows equals the summary of its Total rows alone, so raw
rows are never double-counted. -/
theorem summary_sums_total_rows_only (recs : List Rec)
    (hnum : ∀ r ∈ recs, r.operation = "Total" →
      r.volume.isStr = false ∧ r.amount.isStr = false) :
    totalVolume recs =
      .num (((totalRows recs).map fun r => r.volume.toQ).sum) ∧
    totalAmount recs =
      .num (((totalRows recs).map fun r => r.amount.toQ).sum) ∧
    totalVolume recs = totalVolume (totalRows recs) ∧
    totalAmount recs = totalAmount (totalRows recs) := by
  have hTT : totalRows (totalRows recs) = totalRows recs := by
    unfold totalRows
    rw [List.filter_filter]
    apply List.filter_congr
    intro a _
    rw [Bool.and_self]
  have hv : ∀ x ∈ (totalRows recs).map Rec.volume, x.isStr = false := by
    intro x hx
    obtain ⟨r, hr, rfl⟩ := List.mem_map.mp hx
    obtain ⟨hmem, hop⟩ := mem_totalRows.mp hr
    exact (hnum r hmem hop).1
  have ha : ∀ x ∈ (totalRows recs).map Rec.amount, x.isStr = false := by
    intro x hx
    obtain ⟨r, hr, rfl⟩ := List.mem_map.mp hx
    obtain ⟨hmem, hop⟩ := mem_totalRows.mp hr
    exact (hnum r hmem hop).2
  refine ⟨?_, ?_, ?_, ?_⟩
  · rw [totalVolume, aggCol_eq_num hv, List.map_map]
    rfl
  · rw [totalAmount, aggCol_eq_num ha, List.map_map]
    rfl
  · rw [totalVolume, totalVolume, hTT]
  · rw [totalAmount, totalAmount, hTT]

/-- Witness for C6: on a filtered set holding the two raw rows of the C1
example together with their Total row, the summary is (15, 150) — the
Total-row values — and not twice the true total. -/
theorem summary_sums_total_rows_only_witness :
    totalVolume [⟨"A", some 20240101, "deposit", .num 10, .num 100⟩,
                 ⟨"A", some 20240101, "withdrawal", .num 5, .num 50⟩,
                 ⟨"A", some 20240101, "Total", .num 15, .num 150⟩] =
      Cell.num 15 ∧
    totalAmount [⟨"A", some 20240101, "deposit", .num 10, .num 100⟩,
                 ⟨"A", some 20240101, "withdrawal", .num 5, .num 50⟩,
                 ⟨"A", some 20240101, "Total", .num 15, .num 150⟩] =
      Cell.num 150 := by
  have h := summary_sums_total_rows_only
    [⟨"A", some 20240101, "deposit", .num 10, .num 100⟩,
     ⟨"A", some 20240101, "withdrawal", .num 5, .num 50⟩,
     ⟨"A", some 20240101, "Total", .num 15, .num 150⟩] (by decide)
  rw [h.1, h.2.1]
  constructor <;> simp [totalRows, Cell.toQ]

/-! ### C7 -/

theorem isPrefixOf_append_self : ∀ (pat l : List Char),
    pat.isPrefixOf (pat ++ l) = true := by
  intro pat l
  induction pat with
  | nil => cases l <;> rfl
  | cons p ps ih => simp [List.isPrefixOf, ih]

theorem replaceAllAux_fuel {pat rep : List Char} :
    ∀ (n : ℕ) (l : List Char) (f₁ f₂ : ℕ), l.length ≤ n →
      l.length ≤ f₁ → l.length ≤ f₂ →
      replaceAllAux pat rep f₁ l = replaceAllAux pat rep f₂ l := by
  intro n
  induction n with
  | zero =>
    intro l f₁ f₂ hn _ _
    rw [List.length_eq_zero.mp (Nat.le_zero.mp hn)]
    cases f₁ <;> cases f₂ <;> rfl
  | succ n ih =>
    intro l f₁ f₂ hn h1 h2
    cases l with
    | nil => cases f₁ <;> cases f₂ <;> rfl
    | cons c cs =>
      simp only [List.length_cons] at hn h1 h2
      cases f₁ with
      | zero => omega
      | succ a =>
        cases f₂ with
        | zero => omega
        | succ b =>
          simp only [replaceAllAux]
          by_cases hc : pat.isPrefixOf (c :: cs) = true ∧ pat ≠ []
          · rw [if_pos hc, if_pos hc]
            have hlen : 1 ≤ pat.length := List.length_pos.mpr hc.2
            have hd : ((c :: cs).drop pat.length).length ≤ n := by
              simp only [List.length_drop, List.length_cons]
              omega
            have hda : ((c :: cs).drop pat.length).length ≤ a := by
              simp only [List.length_drop, List.length_cons]
              omega
            have hdb : ((c :: cs).drop pat.length).length ≤ b := by
              simp only [List.length_drop, List.length_cons]
              omega
            rw [ih ((c :: cs).drop pat.length) a b hd hda hdb]
          · rw [if_neg hc, if_neg hc]
            rw [ih cs a b (by omega) (by omega) (by omega)]

theorem replaceAll_cons_neg {pat rep : List Char} {c : Char} {cs : List Char}
    (h : ¬(pat.isPrefixOf (c :: cs) = true ∧ pat ≠ [])) :
    replaceAll pat rep (c :: cs) = c :: replaceAll pat rep cs := by
  have hdef : replaceAll pat rep (c :: cs) =
      if pat.isPrefixOf (c :: cs) = true ∧ pat ≠ [] then
        rep ++ replaceAllAux pat rep cs.length ((c :: cs).drop pat.length)
      else c :: replaceAllAux pat rep cs.length cs := rfl
  rw [hdef, if_neg h]
  rfl

theorem replaceAll_append_self {pat rep : List Char} (hpat : pat ≠ [])
    (l : List Char) :
    replaceAll pat rep (pat ++ l) = rep ++ replaceAll pat rep l := by
  cases pat with
  | nil => exact absurd rfl hpat
  | cons p ps =>
    have hdef : replaceAll (p :: ps) rep ((p :: ps) ++ l) =
        if (p :: ps).isPrefixOf ((p :: ps) ++ l) = true ∧ (p :: ps) ≠ [] then
          rep ++ replaceAllAux (p :: ps) rep (ps ++ l).length
            (((p :: ps) ++ l).drop (p :: ps).length)
        else p :: replaceAllAux (p :: ps) rep (ps ++ l).length (ps ++ l) := rfl
    rw [hdef, if_pos ⟨isPrefixOf_append_self _ _, List.cons_ne_nil _ _⟩]
    rw [List.drop_left]
    rw [replaceAllAux_fuel l.length l (ps ++ l).length l.length (le_refl _)
      (by simp) (le_refl _)]
    rfl

theorem replaceAll_no_occurrence {pat rep : List Char} :
    ∀ l : List Char,
      (∀ i < l.length, ¬ pat.isPrefixOf (l.drop i) = true) →
      replaceAll pat rep l = l := by
  intro l
  induction l with
  | nil => intro _; rfl
  | cons c cs ih =>
    intro h
    have h0 : ¬ pat.isPrefixOf (c :: cs) = true := h 0 (by simp)
    rw [replaceAll_cons_neg fun hc => h0 hc.1]
    rw [ih fun i hi => by
      have := h (i + 1) (by simpa using Nat.succ_lt_succ hi)
      simpa using this]

theorem replaceAll_strip_suffix {pat : List Char} (hpat : pat ≠ []) :
    ∀ l : List Char,
      (∀ i < l.length, ¬ pat.isPrefixOf ((l ++ pat).drop i) = true) →
      replaceAll pat [] (l ++ pat) = l := by
  intro l
  induction l with
  | nil =>
    intro _
    have := @replaceAll_append_self pat [] hpat []
    simpa using this
  | cons c cs ih =>
    intro h
    have h0 : ¬ pat.isPrefixOf ((c :: cs) ++ pat) = true := h 0 (by simp)
    have hstep : replaceAll pat [] ((c :: cs) ++ pat) =
        c :: replaceAll pat [] (cs ++ pat) :=
      replaceAll_cons_neg fun hc => h0 hc.1
    rw [hstep, ih fun i hi => by
      have := h (i + 1) (by simp only [List.length_cons]; omega)
      simpa using this]

theorem fileRecs_client (client : String) (rows : List CsvRow) :
    ∀ r ∈ fileRecs client rows, r.client = client := by
  intro r hr
  simp only [fileRecs] at hr
  obtain ⟨p, -, rfl⟩ := List.mem_map.mp hr
  rfl

/-- C7 counterexample: for the file base name dados_dados_x.csv — which is
of the form dados_&lt;client&gt;.csv with client "dados_x" — the extracted client
is "x", not "dados_x": Python str.replace removes EVERY occurrence of
"dados_" and ".csv" from the name, not just the fixed prefix and the fixed
suffix. -/
theorem client_extraction_counterexample :
    extractClient "dados_dados_x.csv" = "x" ∧ "x" ≠ "dados_x" := by decide

/-- C7 (amended): the extraction removes every occurrence of "dados_" and
".csv" from the base name; when the client part contains no occurrence of
either (so the only occurrences are the fixed prefix and suffix), the
extracted identifier equals the client part.  Every record of an ingested
file carries the extracted client name, so two files yielding the same
name have their records merged under one client. -/
theorem client_extraction (c : String)
    (h1 : ∀ i < (c.data ++ ".csv".data).length,
      ¬ ("dados_".data.isPrefixOf ((c.data ++ ".csv".data).drop i)) = true)
    (h2 : ∀ i < c.data.length,
      ¬ (".csv".data.isPrefixOf ((c.data ++ ".csv".data).drop i)) = true) :
    extractClient ("dados_" ++ c ++ ".csv") = c ∧
    ∀ (f : CsvFile) (rs : List Rec), ingestFile f = .ok rs →
      ∀ r ∈ rs, r.client = clientName f.path := by
  constructor
  · have hd : ("dados_" ++ c ++ ".csv").data =
        "dados_".data ++ (c.data ++ ".csv".data) := by
      simp [String.data_append]
    have hno : ∀ i < (c.data ++ ".csv".data).length,
        ¬ ("dados_".data.isPrefixOf ((c.data ++ ".csv".data).drop i)) = true :=
      h1
    have hstep1 : pyReplace ("dados_" ++ c ++ ".csv") "dados_" "" =
        ⟨c.data ++ ".csv".data⟩ := by
      show (⟨replaceAll "dados_".data "".data ("dados_" ++ c ++ ".csv").data⟩ :
        String) = ⟨c.data ++ ".csv".data⟩
      rw [hd]
      rw [show ("" : String).data = [] from rfl]
      rw [replaceAll_append_self (by decide) (c.data ++ ".csv".data)]
      rw [replaceAll_no_occurrence _ hno]
      rfl
    have hstep2 : pyReplace ⟨c.data ++ ".csv".data⟩ ".csv" "" = c := by
      show (⟨replaceAll ".csv".data "".data (c.data ++ ".csv".data)⟩ :
        String) = c
      rw [show ("" : String).data = [] from rfl]
      rw [replaceAll_strip_suffix (by decide) c.data h2]
    rw [extractClient, hstep1, hstep2]
  · intro f rs hok r hr
    rw [ingestFile_ok hok] at hr
    exact fileRecs_client _ _ r hr

/-- Witness for C7 (amended): the client "acme" contains neither "dados_"
nor ".csv", so dados_acme.csv extracts to "acme"; and the record ingested
from data/dados_A.csv carries client "A" = clientName "data/dados_A.csv". -/
theorem client_extraction_witness :
    extractClient ("dados_" ++ "acme" ++ ".csv") = "acme" ∧
    (⟨"A", some 20240101, "deposit", .num 1, .num 2⟩ : Rec).client =
      clientName "data/dados_A.csv" := by
  have h := client_extraction "acme" (by decide) (by decide)
  refine ⟨h.1, ?_⟩
  exact h.2 ⟨"data/dados_A.csv", false, [⟨"2024-01-01", "deposit", "1", "2"⟩]⟩
    [⟨"A", some 20240101, "deposit", .num 1, .num 2⟩] rfl
    ⟨"A", some 20240101, "deposit", .num 1, .num 2⟩ (by decide)

/-! ### C8 -/

/-- The records one file contributes to the combined load (none when the
file is rejected). -/
def okRecs (f : CsvFile) : List Rec :=
  match ingestFile f with
  | .ok rs => rs
  | .error _ => []

theorem loadDir_fst_eq_join : ∀ fs : List CsvFile,
    (loadDir fs).1 = (fs.map okRecs).flatten := by
  intro fs
  induction fs with
  | nil => rfl
  | cons f fs ih =>
    cases hif : ingestFile f with
    | ok rs => simp [loadDir, okRecs, hif, ih]
    | error e => simp [loadDir, okRecs, hif, ih]

theorem keysOf_perm {recs₁ recs₂ : List Rec} (h : recs₁.Perm recs₂) :
    (keysOf recs₁).Perm (keysOf recs₂) :=
  (h.filterMap _).dedup

theorem groupOf_perm {recs₁ recs₂ : List Rec} (h : recs₁.Perm recs₂)
    (c : String) (d : ℕ) :
    (groupOf recs₁ c d).Perm (groupOf recs₂ c d) :=
  h.filter _

theorem aggCol_perm_of_num {cs₁ cs₂ : List Cell} (h : cs₁.Perm cs₂)
    (hnum : ∀ x ∈ cs₁, x.isStr = false) :
    aggCol cs₁ = aggCol cs₂ := by
  have hnum₂ : ∀ x ∈ cs₂, x.isStr = false := fun x hx => hnum x (h.mem_iff.mpr hx)
  rw [aggCol_eq_num hnum, aggCol_eq_num hnum₂, (h.map Cell.toQ).sum_eq]

theorem totalDf_perm {recs₁ recs₂ : List Rec} (h : recs₁.Perm recs₂)
    (hnum : ∀ r ∈ recs₁, r.volume.isStr = false ∧ r.amount.isStr = false) :
    (totalDf recs₁).Perm (totalDf recs₂) := by
  have hgv : ∀ (c : String) (d : ℕ),
      ∀ x ∈ (groupOf recs₁ c d).map Rec.volume, x.isStr = false := by
    intro c d x hx
    obtain ⟨r, hr, rfl⟩ := List.mem_map.mp hx
    exact (hnum r (mem_groupOf.mp hr).1).1
  have hga : ∀ (c : String) (d : ℕ),
      ∀ x ∈ (groupOf recs₁ c d).map Rec.amount, x.isStr = false := by
    intro c d x hx
    obtain ⟨r, hr, rfl⟩ := List.mem_map.mp hx
    exact (hnum r (mem_groupOf.mp hr).1).2
  have hcongr : totalDf recs₁ = (keysOf recs₁).map fun k =>
      { client := k.1
        date := some k.2
        operation := "Total"
        volume := aggCol ((groupOf recs₂ k.1 k.2).map Rec.volume)
        amount := aggCol ((groupOf recs₂ k.1 k.2).map Rec.amount) : Rec } := by
    apply List.map_congr_left
    intro k _
    have hv := aggCol_perm_of_num ((groupOf_perm h k.1 k.2).map Rec.volume)
      (hgv k.1 k.2)
    have ha := aggCol_perm_of_num ((groupOf_perm h k.1 k.2).map Rec.amount)
      (hga k.1 k.2)
    rw [Rec.mk.injEq]
    exact ⟨rfl, rfl, rfl, hv, ha⟩
  rw [hcongr, totalDf]
  exact (keysOf_perm h).map _

/-- C8: the pipeline is deterministic — identical input files and filter
parameters give identical outputs — and loading the same directory in a
different file order yields the same ingested records, combined dataset
and filtered view up to permutation (order-independent comparison; the
permutation statements about the derived rows assume numeric columns,
since pandas would raise on summing a mixed object column). -/
theorem load_deterministic_and_order_independent
    (files₁ files₂ : List CsvFile) (sel : List String) (s e : ℕ) :
    (files₁ = files₂ →
      load files₁ = load files₂ ∧
      filteredDf (load files₁).1 sel s e =
        filteredDf (load files₂).1 sel s e) ∧
    (files₁.Perm files₂ →
      (loadDir files₁).1.Perm (loadDir files₂).1 ∧
      ((∀ r ∈ (loadDir files₁).1,
          r.volume.isStr = false ∧ r.amount.isStr = false) →
        (load files₁).1.Perm (load files₂).1 ∧
        (filteredDf (load files₁).1 sel s e).Perm
          (filteredDf (load files₂).1 sel s e))) := by
  refine ⟨fun heq => by rw [heq]; exact ⟨rfl, rfl⟩, fun hperm => ?_⟩
  have hrec : (loadDir files₁).1.Perm (loadDir files₂).1 := by
    rw [loadDir_fst_eq_join, loadDir_fst_eq_join]
    exact (hperm.map okRecs).flatten
  refine ⟨hrec, fun hnum => ?_⟩
  have hcomb : (load files₁).1.Perm (load files₂).1 :=
    hrec.append (totalDf_perm hrec hnum)
  exact ⟨hcomb, hcomb.filter _⟩

/-- Witness for C8: loading the two example files in either order gives
the same records, the same combined dataset and the same filtered view up
to permutation (and trivially identical output on identical input). -/
theorem load_deterministic_and_order_independent_witness :
    load [⟨"data/dados_A.csv", false, [⟨"2024-01-01", "deposit", "1", "2"⟩]⟩] =
      load [⟨"data/dados_A.csv", false,
        [⟨"2024-01-01", "deposit", "1", "2"⟩]⟩] ∧
    (loadDir [⟨"data/dados_A.csv", false, [⟨"2024-01-01", "deposit", "1", "2"⟩]⟩,
              ⟨"data/dados_B.csv", false,
                [⟨"2024-01-02", "withdrawal", "3", "4"⟩]⟩]).1.Perm
      (loadDir [⟨"data/dados_B.csv", false,
                  [⟨"2024-01-02", "withdrawal", "3", "4"⟩]⟩,
                ⟨"data/dados_A.csv", false,
                  [⟨"2024-01-01", "deposit", "1", "2"⟩]⟩]).1 ∧
    (load [⟨"data/dados_A.csv", false, [⟨"2024-01-01", "deposit", "1", "2"⟩]⟩,
           ⟨"data/dados_B.csv", false,
             [⟨"2024-01-02", "withdrawal", "3", "4"⟩]⟩]).1.Perm
      (load [⟨"data/dados_B.csv", false,
               [⟨"2024-01-02", "withdrawal", "3", "4"⟩]⟩,
             ⟨"data/dados_A.csv", false,
               [⟨"2024-01-01", "deposit", "1", "2"⟩]⟩]).1 := by
  have h1 := (load_deterministic_and_order_independent
    [⟨"data/dados_A.csv", false, [⟨"2024-01-01", "deposit", "1", "2"⟩]⟩]
    [⟨"data/dados_A.csv", false, [⟨"2024-01-01", "deposit", "1", "2"⟩]⟩]
    [] 0 0).1 rfl
  have h2 := (load_deterministic_and_order_independent
    [⟨"data/dados_A.csv", false, [⟨"2024-01-01", "deposit", "1", "2"⟩]⟩,
     ⟨"data/dados_B.csv", false, [⟨"2024-01-02", "withdrawal", "3", "4"⟩]⟩]
    [⟨"data/dados_B.csv", false, [⟨"2024-01-02", "withdrawal", "3", "4"⟩]⟩,
     ⟨"data/dados_A.csv", false, [⟨"2024-01-01", "deposit", "1", "2"⟩]⟩]
    [] 0 0).2 (by decide)
  exact ⟨h1.1, h2.1, (h2.2 (by decide)).1⟩

/-! ### C9 -/

/-- C9 counterexample: nothing stops a source file from containing a row
whose operation is the literal "Total"; the load keeps it as a raw record
and also derives an aggregate Total row for the same (client, date), so the
dataset holds two Total rows for that pair, one of them read from a source
file. -/
theorem total_rows_can_come_from_source :
    ((load [⟨"data/dados_A.csv", false,
        [⟨"2024-01-01", "Total", "1", "1"⟩]⟩]).1.filter fun r =>
      r.operation == "Total" && r.client == "A" &&
        r.date == some 20240101).length = 2 := by decide

/-- C9 (amended): provided no source record carries the reserved operation
label "Total", every Total row of the combined dataset comes from the
aggregation step, and for every (client, date) pair present in the source
records exactly one Total row with that key exists. -/
theorem total_rows_unique_per_key (recs : List Rec)
    (hraw : ∀ r ∈ recs, r.operation ≠ "Total") (c : String) (d : ℕ)
    (hmem : ∃ r ∈ recs, r.client = c ∧ r.date = some d) :
    (∀ r ∈ combinedDf recs, r.operation = "Total" → r ∈ totalDf recs) ∧
    ((combinedDf recs).filter fun r =>
      r.operation == "Total" && r.client == c &&
        r.date == some d).length = 1 := by
  constructor
  · intro r hr hop
    rcases List.mem_append.mp hr with hr | hr
    · exact absurd hop (hraw r hr)
    · exact hr
  · rw [combinedDf, List.filter_append]
    have hnilraw : (recs.filter fun r =>
        r.operation == "Total" && r.client == c && r.date == some d) = [] := by
      apply List.filter_eq_nil_iff.mpr
      intro r hr
      simp only [Bool.and_eq_true, beq_iff_eq, not_and]
      intro h
      exact absurd h.1 (hraw r hr)
    rw [hnilraw, List.nil_append, totalDf, ← List.countP_eq_length_filter,
      List.countP_map]
    have hcount : (keysOf recs).countP (fun k => decide (k = (c, d))) = 1 :=
      List.count_eq_one_of_mem (nodup_keysOf recs) (mem_keysOf.mpr hmem)
    rw [← hcount]
    apply List.countP_congr
    intro k _
    cases k with
    | mk a b =>
      show ((("Total" : String) == "Total") && a == c && (some b == some d)) =
          true ↔ (decide ((a, b) = (c, d))) = true
      simp [and_assoc, Prod.ext_iff]

/-- Witness for C9 (amended): in the C1 example dataset — whose raw
operations are "deposit" and "withdrawal" — every Total row of the
combined dataset is derived, and exactly one Total row exists for
("A", 2024-01-01). -/
theorem total_rows_unique_per_key_witness :
    ((combinedDf [⟨"A", some 20240101, "deposit", .num 10, .num 100⟩,
                  ⟨"A", some 20240101, "withdrawal", .num 5, .num 50⟩]).filter
      fun r => r.operation == "Total" && r.client == "A" &&
        r.date == some 20240101).length = 1 := by
  exact (total_rows_unique_per_key
    [⟨"A", some 20240101, "deposit", .num 10, .num 100⟩,
     ⟨"A", some 20240101, "withdrawal", .num 5, .num 50⟩]
    (by decide) "A" 20240101
    ⟨⟨"A", some 20240101, "deposit", .num 10, .num 100⟩, by decide⟩).2

/-! ### C10 -/

theorem filterMap_keys_filter_isSome (recs : List Rec) :
    ((recs.filter fun r => r.date.isSome).filterMap fun r =>
      r.date.map fun d => (r.client, d)) =
      recs.filterMap fun r => r.date.map fun d => (r.client, d) := by
  induction recs with
  | nil => rfl
  | cons r rs ih =>
    cases hd : r.date with
    | none => simp [List.filter_cons, List.filterMap_cons, hd, ih]
    | some d => simp [List.filter_cons, List.filterMap_cons, hd, ih]

theorem groupOf_filter_isSome (recs : List Rec) (c : String) (d : ℕ) :
    groupOf (recs.filter fun r => r.date.isSome) c d = groupOf recs c d := by
  unfold groupOf
  rw [List.filter_filter]
  apply List.filter_congr
  intro r _
  cases hd : r.date <;> simp [hd]

/-- C10: records with missing dates are excluded from grouping entirely —
removing them first leaves the derived Total rows unchanged, and every
Total row carries a present date — while the records themselves remain in
the unfiltered combined dataset. -/
theorem missing_date_excluded_from_grouping (recs : List Rec) :
    totalDf (recs.filter fun r => r.date.isSome) = totalDf recs ∧
    (∀ r ∈ totalDf recs, r.date.isSome = true) ∧
    (∀ r ∈ recs, r ∈ combinedDf recs) := by
    refine ⟨?_, fun r hr => ?_, fun r hr => List.mem_append_left _ hr⟩
    · unfold totalDf
      have hkeys : keysOf (recs.filter fun r => r.date.isSome) = keysOf recs := by
        unfold keysOf
        rw [filterMap_keys_filter_isSome]
      rw [hkeys]
      apply List.map_congr_left
      intro k _
      rw [groupOf_filter_isSome]
    · obtain ⟨k, -, rfl⟩ := List.mem_map.mp hr
      rfl

/-- Witness for C10: with one dated record and one missing-date record, the
missing-date record spawns no group and feeds no sum — the Total rows are
those of the dated record alone — yet it stays in the combined dataset. -/
theorem missing_date_excluded_from_grouping_witness :
    totalDf ([⟨"A", some 20240101, "deposit", .num 10, .num 100⟩,
              ⟨"A", none, "withdrawal", .num 5, .num 50⟩].filter fun r =>
      r.date.isSome) =
      totalDf [⟨"A", some 20240101, "deposit", .num 10, .num 100⟩,
               ⟨"A", none, "withdrawal", .num 5, .num 50⟩] ∧
    (⟨"A", none, "withdrawal", .num 5, .num 50⟩ : Rec) ∈
      combinedDf [⟨"A", some 20240101, "deposit", .num 10, .num 100⟩,
                  ⟨"A", none, "withdrawal", .num 5, .num 50⟩] := by
  have h := missing_date_excluded_from_grouping
    [⟨"A", some 20240101, "deposit", .num 10, .num 100⟩,
     ⟨"A", none, "withdrawal", .num 5, .num 50⟩]
  exact ⟨h.1, h.2.2 ⟨"A", none, "withdrawal", .num 5, .num 50⟩ (by decide)⟩

end Dashboard
